import Mathlib

/- Verification of the linked-list Set library (src/set.c, src/set.h).

The element type V stands for the payload type behind the void pointers of
the C API; a stored datum is an Option V, with none playing the role of the
NULL pointer.  F is the type of the user-supplied destroy callback, which
the library only stores and propagates; its behaviour (releasing payloads)
has no observable effect in this functional model.

Two embeddings are given.

The list-level model (structure CSet below) represents the member chain
from head to tail as a Lean list in order; head is the first list element
and tail the last.  This view is exact for every state reachable without
set_remove, and it is the model used for the algebra operations, which only
traverse their inputs and build their output by set_insert.

A pointer-level model (structure HSet further down) keeps the nodes in an
explicit heap addressed by allocation index, with head/tail as node indices
and next as a stored index, because set_remove manipulates raw pointers in
a way the list view cannot express faithfully (in particular it can leave
tail dangling).

Machine int subtleties: size is a C int; it is modelled as Int.  No
arithmetic in the library can overflow at the sizes considered, so no
explicit wrap-around is modelled.  malloc is modelled by a Boolean
parameter alloc where the source checks its result (set_create); set_insert
does not check its malloc at all, so allocation is assumed to succeed
there, exactly as the source does. -/

namespace SetC

/-- Bookkeeping of struct Set (src/set.h): size, the match and destroy
callbacks exactly as stored (possibly NULL, hence Option), and the member
chain from head to tail as a list of stored data pointers in order. -/
structure CSet (V F : Type) where
  size : Int
  match_fn : Option (Option V → Option V → Bool)
  destroy : Option F
  members : List (Option V)

variable {V F : Type}

/-- Macro set_size from src/set.h: reads the size field. -/
def set_size (s : CSet V F) : Int :=
  s.size

/-- Macro set_isempty from src/set.h: set_size == 0. -/
def set_isempty (s : CSet V F) : Bool :=
  set_size s == 0

/-- Call through a stored match pointer.  The source calls set->match
without a null check; calling through an absent match is a null-function
dereference in C, and no theorem below exercises this default branch. -/
def mget (m : Option (Option V → Option V → Bool)) : Option V → Option V → Bool :=
  fun a b =>
    match m with
    | some f => f a b
    | none => false

/-- Scan loop of set_ismember (src/set.c:127-135): walk the chain until
match(current->data, data) == 1 or the chain ends; returns 1 on a hit and
0 when current runs off the end. -/
def scanMem (m : Option V → Option V → Bool) (d : Option V) : List (Option V) → Int
  | [] => 0
  | x :: xs => if m x d then 1 else scanMem m d xs

/-- set_ismember (src/set.c:119-136): -1 when the set or the datum is
absent, 0 on an empty set, otherwise the linear scan with the set's own
match. -/
def set_ismember (os : Option (CSet V F)) (d : Option V) : Int :=
  match os, d with
  | none, _ => -1
  | _, none => -1
  | some s, some _ => if set_isempty s then 0 else scanMem (mget s.match_fn) d s.members

/-- set_insert (src/set.c:152-179): reject an absent datum with -1; then
the C code tests the raw truthiness of set_ismember, so both 1 (member)
and -1 (absent set) short-circuit to the duplicate result 1; otherwise
append a fresh member at the tail and bump size.  The unreachable arm
mirrors the fact that a null set can never pass the membership test. -/
def set_insert (os : Option (CSet V F)) (d : Option V) : Int × Option (CSet V F) :=
  match d with
  | none => (-1, os)
  | some _ =>
    if set_ismember os d ≠ 0 then (1, os)
    else
      match os with
      | none => (-1, none)
      | some s =>
        (0, some ⟨s.size + 1, s.match_fn, s.destroy,
                  if set_isempty s then [d] else s.members ++ [d]⟩)

/-- Teardown loop of set_destroy (src/set.c:290-301): pops the head while
size > 0.  Returns false exactly when the loop would dereference a null
head, i.e. when the counted size exceeds the chain length. -/
def teardownOk : Int → List (Option V) → Bool
  | n, [] => decide (n ≤ 0)
  | n, _ :: ms => if n ≤ 0 then true else teardownOk (n - 1) ms

/-- set_destroy (src/set.c:285-305) over a handle cell.  The argument is
the Set ** cell: none models a null handle, some none a handle that
designates no set, some (some s) a handle designating s.  The result is
none when the code faults (set_size(*set) dereferences the handle and the
set unconditionally), and some of the final cell state otherwise; on a
normal return the cell is left designating no set. -/
def set_destroy (h : Option (Option (CSet V F))) : Option (Option (Option (CSet V F))) :=
  match h with
  | none => none
  | some none => none
  | some (some s) => if teardownOk s.size s.members then some (some none) else none

/-- set_create (src/set.c:86-102): fails only when malloc fails (the
alloc flag); no field, in particular match, is validated.  On success all
fields are initialised and the callbacks are stored as given. -/
def set_create (alloc : Bool) (m : Option (Option V → Option V → Bool))
    (d : Option F) : Option (CSet V F) :=
  if alloc then some ⟨0, m, d, []⟩ else none

/-- Prefix of the variadic array up to the NULL sentinel appended by the
set_union / set_intersection wrapper macros (src/set.h:57-61). -/
def takeWhileSome {A : Type} : List (Option A) → List A
  | [] => []
  | none :: _ => []
  | some a :: rest => a :: takeWhileSome rest

/-- Inner loop of set_union_func (src/set.c:336-339): insert every datum
of one input chain into the output; a negative insert result jumps to
error_exception, modelled by none. -/
def unionInsertAll (out : CSet V F) : List (Option V) → Option (CSet V F)
  | [] => some out
  | d :: ds =>
    match set_insert (some out) d with
    | (r, some out') => if r < 0 then none else unionInsertAll out' ds
    | (_, none) => none

/-- Outer loop of set_union_func over the processed sequence of sets. -/
def unionSets (out : CSet V F) : List (CSet V F) → Option (CSet V F)
  | [] => some out
  | s :: ss =>
    match unionInsertAll out s.members with
    | some out' => unionSets out' ss
    | none => none

/-- set_union_func (src/set.c:323-348).  The reply is the returned int
together with the final state of the Set ** cell.  Note the source's index
slip: the for loop initialises with sets[0] and its first update re-reads
sets[0] (i is incremented only after the read), so sets[0] is processed
twice before sets[1..]; the processed sequence is s0 :: takeWhileSome arr.
On any failing insert the partial output is destroyed and the cell is left
designating no set, as by set_destroy. -/
def set_union_func (alloc : Bool) (setu : Option (Option (CSet V F)))
    (arr : List (Option (CSet V F))) : Int × Option (Option (CSet V F)) :=
  match arr.getD 0 none with
  | none => (-1, setu)
  | some s0 =>
    match setu with
    | none => (-1, none)
    | some none =>
      match set_create alloc s0.match_fn s0.destroy with
      | none => (-1, some none)
      | some out =>
        match unionSets out (s0 :: takeWhileSome arr) with
        | some res => (0, some (some res))
        | none => (-1, some none)
    | some (some hs) =>
      if set_size hs > 0 then (-1, some (some hs))
      else
        match unionSets hs (s0 :: takeWhileSome arr) with
        | some res => (0, some (some res))
        | none => (-1, some none)

/-- Loop of set_intersection_func (src/set.c:381-389): for each datum of
the first set, nonmember is set when some later set answers
set_ismember == 0 (C negation !x, so the error value -1 counts as
membership); a candidate is inserted with the insert result discarded --
the source contains no error_exception path here. -/
def interLoop (rest : List (CSet V F)) (out : CSet V F) : List (Option V) → CSet V F
  | [] => out
  | d :: ds =>
    if rest.any (fun t => set_ismember (some t) d == 0) then interLoop rest out ds
    else
      match set_insert (some out) d with
      | (_, some out') => interLoop rest out' ds
      | (_, none) => interLoop rest out ds

/-- set_intersection_func (src/set.c:370-392): same handle discipline as
union, then the candidate loop over the first set's chain; the later sets
are the array entries after index 0 up to the NULL sentinel. -/
def set_intersection_func (alloc : Bool) (seti : Option (Option (CSet V F)))
    (arr : List (Option (CSet V F))) : Int × Option (Option (CSet V F)) :=
  match arr.getD 0 none with
  | none => (-1, seti)
  | some s0 =>
    match seti with
    | none => (-1, none)
    | some none =>
      match set_create alloc s0.match_fn s0.destroy with
      | none => (-1, some none)
      | some out => (0, some (some (interLoop (takeWhileSome (arr.drop 1)) out s0.members)))
    | some (some hs) =>
      if set_size hs > 0 then (-1, some (some hs))
      else (0, some (some (interLoop (takeWhileSome (arr.drop 1)) hs s0.members)))

/-- Loop of set_difference (src/set.c:417-423): a datum of the minuend is
inserted when set_ismember on the subtrahend answers 0; any non-zero
insert result jumps to error_exception, modelled by none. -/
def diffLoop (b : CSet V F) (out : CSet V F) : List (Option V) → Option (CSet V F)
  | [] => some out
  | d :: ds =>
    if set_ismember (some b) d == 0 then
      match set_insert (some out) d with
      | (0, some out') => diffLoop b out' ds
      | _ => none
    else diffLoop b out ds

/-- set_difference (src/set.c:409-431): after the null checks the output
cell is unconditionally overwritten with a freshly created set -- there is
no non-empty-destination check; on a failing insert the partial output is
destroyed and the cell left designating no set. -/
def set_difference (alloc : Bool) (setd : Option (Option (CSet V F)))
    (s1 s2 : Option (CSet V F)) : Int × Option (Option (CSet V F)) :=
  match setd, s1, s2 with
  | none, _, _ => (-1, none)
  | some h, none, _ => (-1, some h)
  | some h, _, none => (-1, some h)
  | some _, some a, some b =>
    match set_create alloc a.match_fn a.destroy with
    | none => (-1, some none)
    | some out =>
      match diffLoop b out a.members with
      | some res => (0, some (some res))
      | none => (-1, some none)

/-- Loop of set_issubset (src/set.c:454-459): return 0 as soon as
set_ismember on set2 answers 0 (again C negation, so -1 counts as
membership), else fall through to 1. -/
def subLoop (b : CSet V F) : List (Option V) → Int
  | [] => 1
  | d :: ds => if set_ismember (some b) d == 0 then 0 else subLoop b ds

/-- set_issubset (src/set.c:445-462): 0 on an absent operand, the
dedicated guard answering 1 for an empty set1 against a non-empty set2,
then the element loop. -/
def set_issubset (s1 s2 : Option (CSet V F)) : Int :=
  match s1, s2 with
  | none, _ => 0
  | _, none => 0
  | some a, some b =>
    if set_isempty a && !set_isempty b then 1
    else subLoop b a.members

/-- View of a Set ** cell retaining only size and chain, so that concrete
runs can be compared decidably (the stored callbacks are functions). -/
def handleView (h : Option (Option (CSet V F))) : Option (Option (Int × List (Option V))) :=
  h.map (Option.map (fun s => (s.size, s.members)))

/-- Chain bookkeeping is coherent: the counted size is the chain length.
Every state reachable through the API satisfies this. -/
def wfL (s : CSet V F) : Prop :=
  s.size = (s.members.length : Int)

instance (s : CSet V F) : Decidable (wfL s) :=
  inferInstanceAs (Decidable (s.size = (s.members.length : Int)))

/-- Integer match of the repository's test harnesses (function match in
src/set_test.c:140-154 and src/test.c:181-195): two NULLs are equal, NULL
differs from anything concrete, integers compare by value. -/
def cmatch : Option Int → Option Int → Bool
  | none, none => true
  | none, some _ => false
  | some _, none => false
  | some a, some b => a == b

/-- Test fixture: the set {0, 1, 2} of the harness arrays, as built by
three successful inserts. -/
def sA : CSet Int Unit :=
  ⟨3, some cmatch, none, [some 0, some 1, some 2]⟩

/-- Test fixture: the set {2, 4, 6} of the harness arrays. -/
def sB : CSet Int Unit :=
  ⟨3, some cmatch, none, [some 2, some 4, some 6]⟩

/-- Test fixture: the set {1, 2, 3}. -/
def s123 : CSet Int Unit :=
  ⟨3, some cmatch, none, [some 1, some 2, some 3]⟩

/-- Test fixture: a freshly created empty set. -/
def sE : CSet Int Unit :=
  ⟨0, some cmatch, none, []⟩

/-- Adversarial state for the teardown claims: a chain holding the data
pointers 1 and NULL.  A NULL payload is exactly what makes set_insert
report the failure -1 that the union and difference loops are guarded
against. -/
def sBad : CSet Int Unit :=
  ⟨2, some cmatch, none, [some 1, none]⟩

/-- Test fixture: a non-empty destination set {7} for the
pre-populated-output claims. -/
def s7 : CSet Int Unit :=
  ⟨1, some cmatch, none, [some 7]⟩

/-- Test fixture: the singleton set {1}. -/
def sOne : CSet Int Unit :=
  ⟨1, some cmatch, none, [some 1]⟩

/- ------------------------------------------------------------------ -/
/- Basic lemmas about the container primitives.                        -/
/- ------------------------------------------------------------------ -/

theorem mget_some (f : Option V → Option V → Bool) (a b : Option V) :
    mget (some f) a b = f a b :=
  rfl

theorem isempty_iff_nil (s : CSet V F) (hwf : wfL s) :
    set_isempty s = true ↔ s.members = [] := by
  unfold set_isempty set_size
  rw [hwf]
  simp [List.length_eq_zero]

theorem scanMem_zero_or_one (m : Option V → Option V → Bool) (d : Option V) :
    ∀ l : List (Option V), scanMem m d l = 0 ∨ scanMem m d l = 1 := by
  intro l
  induction l with
  | nil => exact Or.inl rfl
  | cons x xs ih =>
    by_cases h : m x d
    · right; simp [scanMem, h]
    · simpa [scanMem, h] using ih

theorem scanMem_eq_one_iff (m : Option V → Option V → Bool) (d : Option V) :
    ∀ l : List (Option V), (scanMem m d l = 1 ↔ ∃ x ∈ l, m x d = true) := by
  intro l
  induction l with
  | nil => simp [scanMem]
  | cons x xs ih =>
    by_cases h : m x d
    · simp [scanMem, h]
    · simp [scanMem, h, ih]

theorem ismember_zero_or_one (s : CSet V F) (v : V) :
    set_ismember (some s) (some v) = 0 ∨ set_ismember (some s) (some v) = 1 := by
  unfold set_ismember
  by_cases h : set_isempty s
  · simp [h]
  · simpa [h] using scanMem_zero_or_one (mget s.match_fn) (some v) s.members

theorem ismember_eq_one_iff (s : CSet V F) (v : V) (hwf : wfL s) :
    set_ismember (some s) (some v) = 1 ↔
      ∃ x ∈ s.members, mget s.match_fn x (some v) = true := by
  unfold set_ismember
  by_cases h : set_isempty s
  · have hnil : s.members = [] := (isempty_iff_nil s hwf).mp h
    simp [h, hnil]
  · simpa [h] using scanMem_eq_one_iff (mget s.match_fn) (some v) s.members

theorem ismember_eq_zero_iff (s : CSet V F) (v : V) (hwf : wfL s) :
    set_ismember (some s) (some v) = 0 ↔
      ∀ x ∈ s.members, mget s.match_fn x (some v) = false := by
  constructor
  · intro h0 x hx
    by_contra hx'
    have hx1 : mget s.match_fn x (some v) = true := by
      cases hc : mget s.match_fn x (some v)
      · exact absurd hc hx'
      · rfl
    have : set_ismember (some s) (some v) = 1 :=
      (ismember_eq_one_iff s v hwf).mpr ⟨x, hx, hx1⟩
    omega
  · intro hall
    rcases ismember_zero_or_one s v with h | h
    · exact h
    · obtain ⟨x, hx, hx1⟩ := (ismember_eq_one_iff s v hwf).mp h
      have := hall x hx
      simp [this] at hx1

theorem insert_dup (s : CSet V F) (v : V)
    (h : set_ismember (some s) (some v) = 1) :
    set_insert (some s) (some v) = (1, some s) := by
  simp [set_insert, h]

theorem insert_new (s : CSet V F) (v : V) (hwf : wfL s)
    (h : set_ismember (some s) (some v) = 0) :
    set_insert (some s) (some v) =
      (0, some ⟨s.size + 1, s.match_fn, s.destroy, s.members ++ [some v]⟩) := by
  unfold set_insert
  simp only [h]
  by_cases he : set_isempty s
  · have hnil : s.members = [] := (isempty_iff_nil s hwf).mp he
    simp [he, hnil]
  · simp [he]

theorem insert_new_wf (s : CSet V F) (hwf : wfL s) (v : V) :
    wfL (⟨s.size + 1, s.match_fn, s.destroy, s.members ++ [some v]⟩ : CSet V F) := by
  unfold wfL at hwf ⊢
  simp [hwf]

theorem teardownOk_length : ∀ l : List (Option V), teardownOk (l.length : Int) l = true := by
  intro l
  induction l with
  | nil => simp [teardownOk]
  | cons x xs ih =>
    have hpos : ¬ ((((x :: xs).length : Nat) : Int) ≤ 0) := by
      simp
    have harith : (((x :: xs).length : Nat) : Int) - 1 = ((xs.length : Nat) : Int) := by
      simp
    rw [teardownOk, if_neg hpos, harith]
    exact ih

theorem takeWhileSome_map_some {A : Type} : ∀ l : List A, takeWhileSome (l.map some) = l := by
  intro l
  induction l with
  | nil => rfl
  | cons x xs ih => simp [takeWhileSome, ih]

theorem cmatch_trans (a b c : Option Int) :
    cmatch a b = true → cmatch b c = true → cmatch a c = true := by
  cases a <;> cases b <;> cases c <;> simp_all [cmatch]

/- ------------------------------------------------------------------ -/
/- Claims.                                                             -/
/- ------------------------------------------------------------------ -/

/-- C1: the claim says every algebra operation that fails partway tears
the partial output down and leaves the handle designating no set.  Union
does (and difference likewise), but set_intersection_func discards the
result of set_insert: on the very same input on which union tears down
and reports -1, intersection reports success 0 and leaves a partially
populated output set {1} in the handle.  This theorem evaluates both
operations at that input. -/
theorem claim_C1_intersection_skips_teardown :
    (set_intersection_func true (some none) [some sBad]).1 = 0 ∧
    handleView (set_intersection_func true (some none) [some sBad]).2 =
      some (some (1, [some 1])) ∧
    (set_union_func true (some none) [some sBad]).1 = -1 ∧
    handleView (set_union_func true (some none) [some sBad]).2 = some none := by
  refine ⟨by decide, by decide, by decide, by decide⟩

/-- Effect of the union insertion loop on one input chain: it always
succeeds on NULL-free data, only appends, covers every processed datum
(either the datum itself ends up in the output or some already present
member matches it), and preserves pairwise distinctness under the output
set's match. -/
theorem unionInsertAll_spec (m : Option V → Option V → Bool) (ds : List (Option V)) :
    ∀ out : CSet V F, out.match_fn = some m → wfL out → (∀ d ∈ ds, d ≠ none) →
    ∃ out', unionInsertAll out ds = some out' ∧
      out'.match_fn = some m ∧ out'.destroy = out.destroy ∧ wfL out' ∧
      (∃ ext, out'.members = out.members ++ ext ∧ ∀ y ∈ ext, y ∈ ds) ∧
      (∀ d ∈ ds, d ∈ out'.members ∨ ∃ y ∈ out'.members, m y d = true) ∧
      (List.Pairwise (fun a b => m a b = false) out.members →
        List.Pairwise (fun a b => m a b = false) out'.members) := by
  induction ds with
  | nil =>
    intro out hm hwf _
    exact ⟨out, rfl, hm, rfl, hwf, ⟨[], by simp, by simp⟩, by simp, fun h => h⟩
  | cons d ds ih =>
    intro out hm hwf hnn
    obtain ⟨v, rfl⟩ : ∃ v, d = some v := by
      cases d
      · exact absurd rfl (hnn none (by simp))
      · exact ⟨_, rfl⟩
    rcases ismember_zero_or_one out v with hz | ho
    · have hins := insert_new out v hwf hz
      obtain ⟨out', heq, hm', hd', hwf', ⟨ext, hext, hextin⟩, hcov, hpw⟩ :=
        ih ⟨out.size + 1, out.match_fn, out.destroy, out.members ++ [some v]⟩
          (by simpa using hm) (insert_new_wf out hwf v)
          (fun x hx => hnn x (by simp [hx]))
      refine ⟨out', ?_, hm', by simpa using hd', hwf', ⟨some v :: ext, ?_, ?_⟩, ?_, ?_⟩
      · simp only [unionInsertAll, hins]
        simpa using heq
      · rw [hext]
        simp
      · intro y hy
        rcases List.mem_cons.mp hy with rfl | hy'
        · simp
        · simp [hextin y hy']
      · intro x hx
        rcases List.mem_cons.mp hx with rfl | hx'
        · left
          rw [hext]
          simp
        · exact hcov x hx'
      · intro hp
        apply hpw
        refine List.pairwise_append.mpr ⟨hp, by simp, ?_⟩
        intro a ha b hb
        simp only [List.mem_singleton] at hb
        subst hb
        have hz' := (ismember_eq_zero_iff out v hwf).mp hz a ha
        rwa [hm, mget_some] at hz'
    · have hins := insert_dup out v ho
      obtain ⟨out', heq, hm', hd', hwf', ⟨ext, hext, hextin⟩, hcov, hpw⟩ :=
        ih out hm hwf (fun x hx => hnn x (by simp [hx]))
      refine ⟨out', ?_, hm', hd', hwf', ⟨ext, hext, ?_⟩, ?_, hpw⟩
      · simp only [unionInsertAll, hins]
        simpa using heq
      · intro y hy
        simp [hextin y hy]
      · intro x hx
        rcases List.mem_cons.mp hx with rfl | hx'
        · right
          obtain ⟨y, hy, hmy⟩ := (ismember_eq_one_iff out v hwf).mp ho
          refine ⟨y, ?_, ?_⟩
          · rw [hext]
            exact List.mem_append_left _ hy
          · rwa [hm, mget_some] at hmy
        · exact hcov x hx'

/-- Effect of the union outer loop over the processed sequence of input
sets: composition of unionInsertAll_spec over the sequence. -/
theorem unionSets_spec (m : Option V → Option V → Bool) (ss : List (CSet V F)) :
    ∀ out : CSet V F, out.match_fn = some m → wfL out →
    (∀ s ∈ ss, ∀ d ∈ s.members, d ≠ none) →
    ∃ res, unionSets out ss = some res ∧
      res.match_fn = some m ∧ res.destroy = out.destroy ∧ wfL res ∧
      (∃ ext, res.members = out.members ++ ext ∧ ∀ y ∈ ext, ∃ s ∈ ss, y ∈ s.members) ∧
      (∀ s ∈ ss, ∀ d ∈ s.members, d ∈ res.members ∨ ∃ y ∈ res.members, m y d = true) ∧
      (List.Pairwise (fun a b => m a b = false) out.members →
        List.Pairwise (fun a b => m a b = false) res.members) := by
  induction ss with
  | nil =>
    intro out hm hwf _
    exact ⟨out, rfl, hm, rfl, hwf, ⟨[], by simp, by simp⟩, by simp, fun h => h⟩
  | cons s ss ih =>
    intro out hm hwf hnn
    obtain ⟨out1, heq1, hm1, hd1, hwf1, ⟨ext1, hext1, hin1⟩, hcov1, hpw1⟩ :=
      unionInsertAll_spec m s.members out hm hwf (hnn s (by simp))
    obtain ⟨res, heq2, hm2, hd2, hwf2, ⟨ext2, hext2, hin2⟩, hcov2, hpw2⟩ :=
      ih out1 hm1 hwf1 (fun t ht => hnn t (by simp [ht]))
    refine ⟨res, ?_, hm2, by rw [hd2, hd1], hwf2, ⟨ext1 ++ ext2, ?_, ?_⟩, ?_, ?_⟩
    · simp only [unionSets, heq1]
      exact heq2
    · rw [hext2, hext1, List.append_assoc]
    · intro y hy
      rcases List.mem_append.mp hy with h | h
      · exact ⟨s, by simp, hin1 y h⟩
      · obtain ⟨t, ht, hy'⟩ := hin2 y h
        exact ⟨t, by simp [ht], hy'⟩
    · intro t ht d hd
      rcases List.mem_cons.mp ht with rfl | ht'
      · rcases hcov1 d hd with h | ⟨y, hy, hmy⟩
        · left
          rw [hext2]
          exact List.mem_append_left _ h
        · right
          refine ⟨y, ?_, hmy⟩
          rw [hext2]
          exact List.mem_append_left _ hy
      · exact hcov2 t ht' d hd
    · intro hp
      exact hpw2 (hpw1 hp)

/-- C3: a successful union over a NULL-free list of input sets, with the
first set's match bound to the output, yields exactly the elements that
appear (per match) in at least one input, deduplicated per match; and the
harness instance union({0,1,2}, {2,4,6}) has size 5 with members exactly
0,1,2,4,6 in first-occurrence order.  Transitivity of the match is what
the spec's symmetric/reflexive/deterministic contract guarantees for an
equality predicate, and the only part the proof needs. -/
theorem claim_C3_union (m : Option V → Option V → Bool) (s0 : CSet V F)
    (rest : List (CSet V F)) (hm : s0.match_fn = some m)
    (htrans : ∀ a b c, m a b = true → m b c = true → m a c = true)
    (hnn : ∀ s ∈ s0 :: rest, ∀ d ∈ s.members, d ≠ none) :
    (∃ res, set_union_func true (some none) ((s0 :: rest).map some) = (0, some (some res)) ∧
      (∀ x : Option V, (∃ y ∈ res.members, m y x = true) ↔
        ∃ s ∈ s0 :: rest, ∃ y ∈ s.members, m y x = true) ∧
      List.Pairwise (fun a b => m a b = false) res.members) ∧
    (set_union_func true (some none) [some sA, some sB]).1 = 0 ∧
    handleView (set_union_func true (some none) [some sA, some sB]).2 =
      some (some (5, [some 0, some 1, some 2, some 4, some 6])) := by
  refine ⟨?_, by decide, by decide⟩
  have hnn' : ∀ s ∈ s0 :: s0 :: rest, ∀ d ∈ s.members, d ≠ none := by
    intro s hs
    rcases List.mem_cons.mp hs with rfl | hs'
    · exact hnn s (by simp)
    · exact hnn s hs'
  obtain ⟨res, heq, hmr, hdr, hwfr, ⟨ext, hext, hin⟩, hcov, hpw⟩ :=
    unionSets_spec m (s0 :: s0 :: rest) ⟨0, s0.match_fn, s0.destroy, []⟩
      (by simpa using hm) (by simp [wfL]) hnn'
  refine ⟨res, ?_, ?_, ?_⟩
  · show set_union_func true (some none) (some s0 :: rest.map some) = (0, some (some res))
    have htws : takeWhileSome (some s0 :: rest.map some) = s0 :: rest := by
      simp [takeWhileSome, takeWhileSome_map_some]
    simp only [set_union_func, List.getD_cons_zero, set_create, if_true, htws, heq]
  · intro x
    constructor
    · rintro ⟨y, hy, hmy⟩
      rw [hext] at hy
      simp only [List.nil_append] at hy
      obtain ⟨s, hs, hys⟩ := hin y hy
      have hs' : s ∈ s0 :: rest := by
        rcases List.mem_cons.mp hs with rfl | h
        · simp
        · exact h
      exact ⟨s, hs', y, hys, hmy⟩
    · rintro ⟨s, hs, e, he, hme⟩
      have hs2 : s ∈ s0 :: s0 :: rest := by
        rcases List.mem_cons.mp hs with rfl | h
        · simp
        · simp [h]
      rcases hcov s hs2 e he with h | ⟨y, hy, hmy⟩
      · exact ⟨e, h, hme⟩
      · exact ⟨y, hy, htrans y e x hmy hme⟩
  · exact hpw (by simp)

/-- C3 witness: the union characterisation instantiated at the harness
sets {0,1,2} and {2,4,6} with the integer match. -/
theorem claim_C3_union_witness :
    (∃ res, set_union_func true (some none) ((sA :: [sB]).map some) = (0, some (some res)) ∧
      (∀ x : Option Int, (∃ y ∈ res.members, cmatch y x = true) ↔
        ∃ s ∈ sA :: [sB], ∃ y ∈ s.members, cmatch y x = true) ∧
      List.Pairwise (fun a b => cmatch a b = false) res.members) ∧
    (set_union_func true (some none) [some sA, some sB]).1 = 0 ∧
    handleView (set_union_func true (some none) [some sA, some sB]).2 =
      some (some (5, [some 0, some 1, some 2, some 4, some 6])) :=
  claim_C3_union cmatch sA [sB] rfl cmatch_trans (by decide)

/-- C4 counterexample: set_intersection_func applied to a single input
set does not fail; it succeeds (returns 0) and hands back a copy of that
set, contradicting the claim that fewer than two input sets are
rejected. -/
theorem cex_C4_single_input_succeeds :
    (set_intersection_func true (some none) [some sOne]).1 = 0 ∧
    handleView (set_intersection_func true (some none) [some sOne]).2 =
      some (some (1, [some 1])) := by
  refine ⟨by decide, by decide⟩

/-- Effect of the intersection candidate loop: on NULL-free, pairwise
distinct candidates that do not match anything already in the output, the
loop appends exactly the candidates kept by the nonmember test, in
order. -/
theorem interLoop_spec (m : Option V → Option V → Bool) (rest : List (CSet V F))
    (ds : List (Option V)) :
    ∀ out : CSet V F, out.match_fn = some m → wfL out →
    (∀ d ∈ ds, d ≠ none) →
    (∀ d ∈ ds, ∀ y ∈ out.members, m y d = false) →
    List.Pairwise (fun a b => m a b = false) ds →
    (interLoop rest out ds).members =
      out.members ++
        ds.filter (fun d => !(rest.any (fun t => set_ismember (some t) d == 0))) ∧
    (interLoop rest out ds).match_fn = some m ∧
    (interLoop rest out ds).destroy = out.destroy ∧
    wfL (interLoop rest out ds) := by
  induction ds with
  | nil =>
    intro out hm hwf _ _ _
    refine ⟨by simp [interLoop], by simp [interLoop, hm], by simp [interLoop], ?_⟩
    simpa [interLoop] using hwf
  | cons d ds ih =>
    intro out hm hwf hnn hsep hpw
    obtain ⟨v, rfl⟩ : ∃ v, d = some v := by
      cases d
      · exact absurd rfl (hnn none (by simp))
      · exact ⟨_, rfl⟩
    obtain ⟨hall, hpw'⟩ := List.pairwise_cons.mp hpw
    by_cases hk : (rest.any fun t => set_ismember (some t) (some v) == 0) = true
    · have hstep : interLoop rest out (some v :: ds) = interLoop rest out ds := by
        simp only [interLoop]
        rw [if_pos hk]
      obtain ⟨h1, h2, h3, h4⟩ :=
        ih out hm hwf (fun x hx => hnn x (by simp [hx]))
          (fun x hx y hy => hsep x (by simp [hx]) y hy) hpw'
      rw [hstep]
      refine ⟨?_, h2, h3, h4⟩
      rw [h1, List.filter_cons]
      simp [hk]
    · have hkf : (rest.any fun t => set_ismember (some t) (some v) == 0) = false := by
        cases hc : (rest.any fun t => set_ismember (some t) (some v) == 0)
        · rfl
        · exact absurd hc hk
      have hz : set_ismember (some out) (some v) = 0 := by
        refine (ismember_eq_zero_iff out v hwf).mpr ?_
        intro y hy
        rw [hm, mget_some]
        exact hsep (some v) (by simp) y hy
      have hins := insert_new out v hwf hz
      have hstep : interLoop rest out (some v :: ds) =
          interLoop rest ⟨out.size + 1, out.match_fn, out.destroy,
            out.members ++ [some v]⟩ ds := by
        simp only [interLoop]
        rw [if_neg hk, hins]
      obtain ⟨h1, h2, h3, h4⟩ :=
        ih ⟨out.size + 1, out.match_fn, out.destroy, out.members ++ [some v]⟩
          (by simpa using hm) (insert_new_wf out hwf v)
          (fun x hx => hnn x (by simp [hx]))
          (by
            intro x hx y hy
            rcases List.mem_append.mp hy with h | h
            · exact hsep x (by simp [hx]) y h
            · simp only [List.mem_singleton] at h
              subst h
              exact hall x hx)
          hpw'
      rw [hstep]
      refine ⟨?_, h2, by simpa using h3, h4⟩
      rw [h1, List.filter_cons]
      simp [hkf]

/-- C4 amended: set_intersection_func fails only when the first array
slot is empty (zero input sets); given one or more input sets it
succeeds, and its output chain is exactly the chain of the first input
set filtered by the nonmember test against the remaining sets, i.e. the
elements of the first set (in its insertion order) that every other set
reports as members under its own match; with a single input this keeps
everything, producing a copy of the first set. -/
theorem claim_C4_intersection (m : Option V → Option V → Bool) (s0 : CSet V F)
    (rest : List (CSet V F)) (hm : s0.match_fn = some m)
    (hnn0 : ∀ d ∈ s0.members, d ≠ none)
    (hpw0 : List.Pairwise (fun a b => m a b = false) s0.members)
    (hwfr : ∀ t ∈ rest, wfL t) :
    (∀ (alloc : Bool) (h : Option (Option (CSet V F))),
      (set_intersection_func alloc h []).1 = -1) ∧
    (∃ res, set_intersection_func true (some none) ((s0 :: rest).map some) =
        (0, some (some res)) ∧
      res.members = s0.members.filter
        (fun d => !(rest.any (fun t => set_ismember (some t) d == 0))) ∧
      (∀ v : V, some v ∈ res.members ↔
        some v ∈ s0.members ∧
          ∀ t ∈ rest, ∃ y ∈ t.members, mget t.match_fn y (some v) = true)) := by
  refine ⟨fun alloc h => rfl, ?_⟩
  obtain ⟨h1, h2, h3, h4⟩ :=
    interLoop_spec m rest s0.members ⟨0, s0.match_fn, s0.destroy, []⟩
      (by simpa using hm) (by simp [wfL]) hnn0 (by simp) hpw0
  refine ⟨interLoop rest ⟨0, s0.match_fn, s0.destroy, []⟩ s0.members, ?_, ?_, ?_⟩
  · show set_intersection_func true (some none) (some s0 :: rest.map some) = _
    simp only [set_intersection_func, List.getD_cons_zero, set_create, if_true,
      List.drop_succ_cons, List.drop_zero, takeWhileSome_map_some]
  · simpa using h1
  · intro v
    have hmem : some v ∈ (interLoop rest ⟨0, s0.match_fn, s0.destroy, []⟩ s0.members).members ↔
        some v ∈ s0.members ∧
          (!(rest.any (fun t => set_ismember (some t) (some v) == 0))) = true := by
      rw [h1]
      simp [List.mem_filter]
    rw [hmem]
    have hkey : (!(rest.any fun t => set_ismember (some t) (some v) == 0)) = true ↔
        ∀ t ∈ rest, ∃ y ∈ t.members, mget t.match_fn y (some v) = true := by
      constructor
      · intro hkeep t ht
        have hfalse : (rest.any fun t => set_ismember (some t) (some v) == 0) = false := by
          cases hc : (rest.any fun t => set_ismember (some t) (some v) == 0)
          · rfl
          · rw [hc] at hkeep
            simp at hkeep
        have hnot : ((set_ismember (some t) (some v) == 0) : Bool) = false := by
          cases hc : ((set_ismember (some t) (some v) == 0) : Bool)
          · rfl
          · have hany : (rest.any fun t => set_ismember (some t) (some v) == 0) = true :=
              List.any_eq_true.mpr ⟨t, ht, hc⟩
            rw [hany] at hfalse
            simp at hfalse
        have hne : set_ismember (some t) (some v) ≠ 0 := by
          intro h0
          rw [h0] at hnot
          simp at hnot
        have hone : set_ismember (some t) (some v) = 1 := by
          rcases ismember_zero_or_one t v with h | h
          · exact absurd h hne
          · exact h
        exact (ismember_eq_one_iff t v (hwfr t ht)).mp hone
      · intro hall
        have hfalse : (rest.any fun t => set_ismember (some t) (some v) == 0) = false := by
          rw [List.any_eq_false]
          intro t ht
          have hone : set_ismember (some t) (some v) = 1 :=
            (ismember_eq_one_iff t v (hwfr t ht)).mpr (hall t ht)
          simp [hone]
        rw [hfalse]
        rfl
    exact and_congr_right fun _ => hkey

/-- C4 witness: the amended intersection characterisation instantiated
at the harness sets {0,1,2} and {2,4,6}; the kept candidates are exactly
those of {0,1,2} that {2,4,6} reports as members. -/
theorem claim_C4_intersection_witness :
    (∀ (alloc : Bool) (h : Option (Option (CSet Int Unit))),
      (set_intersection_func alloc h []).1 = -1) ∧
    (∃ res, set_intersection_func true (some none) ((sA :: [sB]).map some) =
        (0, some (some res)) ∧
      res.members = sA.members.filter
        (fun d => !([sB].any (fun t => set_ismember (some t) d == 0))) ∧
      (∀ v : Int, some v ∈ res.members ↔
        some v ∈ sA.members ∧
          ∀ t ∈ [sB], ∃ y ∈ t.members, mget t.match_fn y (some v) = true)) :=
  claim_C4_intersection cmatch sA [sB] rfl (by decide) (by decide) (by decide)

/-- C5: set_issubset answers 1 exactly when every element of set1 is a
member of set2 under set2's stored match; the empty-against-non-empty
guard answers 1 and a non-empty set against the empty set answers 0. -/
theorem claim_C5_issubset (a b : CSet V F) (hwfa : wfL a) (hwfb : wfL b)
    (hnna : ∀ d ∈ a.members, d ≠ none) :
    (set_issubset (some a) (some b) = 1 ↔
      ∀ v : V, some v ∈ a.members →
        ∃ y ∈ b.members, mget b.match_fn y (some v) = true) ∧
    set_issubset (some sE) (some s123) = 1 ∧
    set_issubset (some s123) (some sE) = 0 := by
  refine ⟨?_, by decide, by decide⟩
  unfold set_issubset
  have hloop : ∀ l : List (Option V), (∀ d ∈ l, d ≠ none) →
      (subLoop b l = 1 ↔
        ∀ v : V, some v ∈ l → ∃ y ∈ b.members, mget b.match_fn y (some v) = true) := by
    intro l
    induction l with
    | nil => simp [subLoop]
    | cons d ds ih =>
      intro hnn
      obtain ⟨v, rfl⟩ : ∃ v, d = some v := by
        cases d
        · exact absurd rfl (hnn none (by simp))
        · exact ⟨_, rfl⟩
      by_cases hz : set_ismember (some b) (some v) = 0
      · have hnmem : ¬ ∃ y ∈ b.members, mget b.match_fn y (some v) = true := by
          intro hex
          have h1 : set_ismember (some b) (some v) = 1 :=
            (ismember_eq_one_iff b v hwfb).mpr hex
          omega
        constructor
        · intro h1
          simp [subLoop, hz] at h1
        · intro hall
          exact absurd (hall v (by simp)) hnmem
      · have h1 : set_ismember (some b) (some v) = 1 := by
          rcases ismember_zero_or_one b v with h | h
          · exact absurd h hz
          · exact h
        have hne : ¬ (set_ismember (some b) (some v) == 0) = true := by
          simp [h1]
        rw [subLoop, if_neg hne]
        have hmem : ∃ y ∈ b.members, mget b.match_fn y (some v) = true :=
          (ismember_eq_one_iff b v hwfb).mp h1
        rw [ih (fun x hx => hnn x (by simp [hx]))]
        constructor
        · intro hall v' hv'
          rcases List.mem_cons.mp hv' with h' | h'
          · cases h'
            exact hmem
          · exact hall v' h'
        · intro hall v' hv'
          exact hall v' (by simp [hv'])
  show (if (set_isempty a && !set_isempty b) = true then (1 : Int) else subLoop b a.members)
      = 1 ↔ _
  by_cases hge : (set_isempty a && !set_isempty b) = true
  · have hea : set_isempty a = true := by
      have hand := hge
      simp only [Bool.and_eq_true] at hand
      exact hand.1
    have hnil : a.members = [] := (isempty_iff_nil a hwfa).mp hea
    rw [if_pos hge]
    simp [hnil]
  · rw [if_neg hge]
    exact hloop a.members hnna

/-- C5 witness: the subset characterisation instantiated at the concrete
sets {0,1,2} and {1,2,3}. -/
theorem claim_C5_issubset_witness :
    (set_issubset (some sA) (some s123) = 1 ↔
      ∀ v : Int, some v ∈ sA.members →
        ∃ y ∈ s123.members, mget s123.match_fn y (some v) = true) ∧
    set_issubset (some sE) (some s123) = 1 ∧
    set_issubset (some s123) (some sE) = 0 :=
  claim_C5_issubset sA s123 (by decide) (by decide) (by decide)

/-- C6: insert of a present element answers 1 (duplicate) and leaves the
set untouched; insert of an absent element appends at the tail, bumps
size and answers 0; and with a reflexive match a second insert of the
same element always answers duplicate and changes nothing. -/
theorem claim_C6_insert (s : CSet V F) (v : V) (hwf : wfL s)
    (hrefl : mget s.match_fn (some v) (some v) = true) :
    (set_ismember (some s) (some v) = 1 →
      set_insert (some s) (some v) = (1, some s)) ∧
    (set_ismember (some s) (some v) = 0 →
      set_insert (some s) (some v) =
        (0, some ⟨s.size + 1, s.match_fn, s.destroy, s.members ++ [some v]⟩)) ∧
    set_insert (set_insert (some s) (some v)).2 (some v) =
      (1, (set_insert (some s) (some v)).2) := by
  refine ⟨fun h => insert_dup s v h, fun h => insert_new s v hwf h, ?_⟩
  rcases ismember_zero_or_one s v with h | h
  · rw [insert_new s v hwf h]
    set s' : CSet V F := ⟨s.size + 1, s.match_fn, s.destroy, s.members ++ [some v]⟩ with hs'
    have hwf' : wfL s' := insert_new_wf s hwf v
    have hmem : set_ismember (some s') (some v) = 1 := by
      refine (ismember_eq_one_iff s' v hwf').mpr ⟨some v, ?_, ?_⟩
      · simp [hs']
      · simpa [hs'] using hrefl
    exact insert_dup s' v hmem
  · rw [insert_dup s v h]
    exact insert_dup s v h

/-- C6 witness: inserting 5 into the empty set and then inserting it
again. -/
theorem claim_C6_insert_witness :
    (set_ismember (some sE) (some 5) = 1 →
      set_insert (some sE) (some 5) = (1, some sE)) ∧
    (set_ismember (some sE) (some 5) = 0 →
      set_insert (some sE) (some 5) =
        (0, some ⟨sE.size + 1, sE.match_fn, sE.destroy, sE.members ++ [some 5]⟩)) ∧
    set_insert (set_insert (some sE) (some 5)).2 (some 5) =
      (1, (set_insert (some sE) (some 5)).2) :=
  claim_C6_insert sE 5 (by decide) (by decide)

/-- C7: the claim says set_create fails whenever match is absent, but
set_create (src/set.c:86-102) validates nothing: with a successful
allocation and a NULL match it happily returns a fresh empty set whose
match field is NULL.  (The repository's own test, src/test.c:304,
expects NULL here.) -/
theorem claim_C7_create_does_not_check_match :
    set_create true (none : Option (Option Int → Option Int → Bool)) (none : Option Unit) =
      some ⟨0, none, none, []⟩ :=
  rfl

/-- C8 counterexample: set_difference invoked with an output handle that
already designates the non-empty set {7} does not fail; it returns 0 and
overwrites the handle with the freshly built difference {0,1,2} minus
{2,4,6} = {0,1}, discarding (and leaking) the previous set. -/
theorem cex_C8_difference_ignores_nonempty_out :
    (set_difference true (some (some s7)) (some sA) (some sB)).1 = 0 ∧
    handleView (set_difference true (some (some s7)) (some sA) (some sB)).2 =
      some (some (2, [some 0, some 1])) := by
  refine ⟨by decide, by decide⟩

/-- C8 amended: union and intersection refuse (with -1, handle
untouched) an output handle designating a non-empty set, while
set_difference performs no such check: its result is entirely
independent of what the output handle designated before the call. -/
theorem claim_C8_nonempty_destination (alloc : Bool) (hs s0 : CSet V F)
    (arr : List (Option (CSet V F))) (hpos : set_size hs > 0) :
    set_union_func alloc (some (some hs)) (some s0 :: arr) = (-1, some (some hs)) ∧
    set_intersection_func alloc (some (some hs)) (some s0 :: arr) = (-1, some (some hs)) ∧
    (∀ (h1 h2 : Option (CSet V F)) (a b : CSet V F),
      set_difference alloc (some h1) (some a) (some b) =
        set_difference alloc (some h2) (some a) (some b)) := by
  refine ⟨?_, ?_, fun h1 h2 a b => rfl⟩
  · unfold set_union_func
    simp [hpos]
  · unfold set_intersection_func
    simp [hpos]

/-- C8 witness: the guards at the concrete destination {7} with inputs
{0,1,2} and {2,4,6}. -/
theorem claim_C8_nonempty_destination_witness :
    set_union_func true (some (some s7)) (some sA :: [some sB]) = (-1, some (some s7)) ∧
    set_intersection_func true (some (some s7)) (some sA :: [some sB]) =
      (-1, some (some s7)) ∧
    (∀ (h1 h2 : Option (CSet Int Unit)) (a b : CSet Int Unit),
      set_difference true (some h1) (some a) (some b) =
        set_difference true (some h2) (some a) (some b)) :=
  claim_C8_nonempty_destination true s7 sA [some sB] (by decide)

/-- C9 counterexample: set_destroy dereferences the handle and the set
unconditionally (src/set.c:290), so on an absent handle, or a handle
designating no set, it faults instead of being the claimed no-op. -/
theorem cex_C9_destroy_faults_on_null :
    set_destroy (none : Option (Option (CSet Int Unit))) = none ∧
    set_destroy (some (none : Option (CSet Int Unit))) = none :=
  ⟨rfl, rfl⟩

/-- C9 amended: destroying a handle that designates an actual
(coherent, in particular empty) set is tolerated and leaves the handle
designating no set, but an absent handle or a handle designating no set
makes set_destroy dereference a null pointer (the repository's own test,
src/test.c:345-346, expects both calls to be harmless). -/
theorem claim_C9_destroy (s : CSet V F) (hwf : wfL s) :
    set_destroy (some (some s)) = some (some none) ∧
    set_destroy (none : Option (Option (CSet V F))) = none ∧
    set_destroy (some (none : Option (CSet V F))) = none := by
  refine ⟨?_, rfl, rfl⟩
  show (if teardownOk s.size s.members = true then some (some none) else none) = some (some none)
  rw [hwf, teardownOk_length]
  simp

/-- C9 witness: destroying the freshly created empty set. -/
theorem claim_C9_destroy_witness :
    set_destroy (some (some sE)) = some (some none) ∧
    set_destroy (none : Option (Option (CSet Int Unit))) = none ∧
    set_destroy (some (none : Option (CSet Int Unit))) = none :=
  claim_C9_destroy sE (by decide)

/-- C10: set_insert on an absent set returns the duplicate result 1 and
not the failure -1, because set_ismember answers -1 for an absent set and
set_insert tests that answer for C truthiness. -/
theorem claim_C10_insert_on_null_set (v : V) :
    set_insert (none : Option (CSet V F)) (some v) = (1, none) := by
  unfold set_insert set_ismember
  simp

/- ------------------------------------------------------------------ -/
/- Pointer-level model, needed for the size invariant claim.  Nodes    -/
/- live in a heap addressed by allocation index; malloc appends a new  -/
/- node and never reuses an index; free does not erase the node, so a  -/
/- write through a dangling pointer still lands in the old node, as it -/
/- does in the C program.                                              -/
/- ------------------------------------------------------------------ -/

/-- Struct Member (src/set.h): the stored data pointer and the next
pointer, as a node index. -/
structure Node (V : Type) where
  data : Option V
  next : Option Nat

/-- Struct Set at the pointer level: counted size, the stored match,
head and tail as node indices, and the heap of every node ever
allocated. -/
structure HSet (V : Type) where
  size : Int
  match_fn : Option V → Option V → Bool
  head : Option Nat
  tail : Option Nat
  heap : List (Node V)

/-- set_create at the pointer level. -/
def createH (m : Option V → Option V → Bool) : HSet V :=
  ⟨0, m, none, none, []⟩

/-- Write node i's next pointer; a no-op on an index that was never
allocated (which the C program cannot produce). -/
def updateNext (h : List (Node V)) (i : Nat) (nx : Option Nat) : List (Node V) :=
  match h.get? i with
  | some nd => h.set i ⟨nd.data, nx⟩
  | none => h

/-- Scan loop of set_ismember at the pointer level, chasing next
pointers with fuel one past the heap size (enough for any acyclic
chain). -/
def scanMemH (s : HSet V) (d : Option V) : Nat → Option Nat → Int
  | _, none => 0
  | 0, some _ => 0
  | fuel + 1, some i =>
    match s.heap.get? i with
    | none => 0
    | some nd => if s.match_fn nd.data d then 1 else scanMemH s d fuel nd.next

/-- set_ismember at the pointer level. -/
def set_ismemberH (os : Option (HSet V)) (d : Option V) : Int :=
  match os, d with
  | none, _ => -1
  | _, none => -1
  | some s, some _ =>
    if s.size == 0 then 0 else scanMemH s d (s.heap.length + 1) s.head

/-- set_insert at the pointer level: allocate the new member at the next
free index, then either initialise head/tail on an empty set or write
set->tail->next and move tail.  The write through the stored tail index
lands in whatever node that index names -- exactly the C behaviour,
including writes through a dangling tail. -/
def set_insertH (os : Option (HSet V)) (d : Option V) : Int × Option (HSet V) :=
  match d with
  | none => (-1, os)
  | some _ =>
    if set_ismemberH os d ≠ 0 then (1, os)
    else
      match os with
      | none => (-1, none)
      | some s =>
        let nid := s.heap.length
        if s.size == 0 then
          (0, some ⟨s.size + 1, s.match_fn, some nid, some nid, s.heap ++ [⟨d, none⟩]⟩)
        else
          match s.tail with
          | none => (-1, os)
          | some t =>
            (0, some ⟨s.size + 1, s.match_fn, s.head, some nid,
                      updateNext s.heap t (some nid) ++ [⟨d, none⟩]⟩)

/-- Walk of the explicit-selector branch of set_remove
(src/set.c:215-217): from node cur, advance while
match(current->next->data, data) != 1; answers the predecessor of the
first matching node, or none where the C code would dereference a null
current->next. -/
def findPred (s : HSet V) (d : Option V) : Nat → Nat → Option Nat
  | 0, _ => none
  | fuel + 1, cur =>
    match s.heap.get? cur with
    | none => none
    | some nd =>
      match nd.next with
      | none => none
      | some nxt =>
        match s.heap.get? nxt with
        | none => none
        | some nnd =>
          if s.match_fn nnd.data d then some cur else findPred s d fuel nxt

/-- set_remove (src/set.c:194-242) at the pointer level.  The void **
cell is modelled by the selector argument going in and the removed data
pointer coming out.  The outer none means the C code faults (null
dereference); some carries the returned int, the data written back
through the cell, and the new set state.  Note that in the branch
unlinking via a predecessor the source updates only the predecessor's
next pointer: when the removed node is the tail, set->tail is left
pointing at the freed node. -/
def set_removeH (os : Option (HSet V)) (sel : Option V) :
    Option (Int × Option V × Option (HSet V)) :=
  match sel with
  | some _ =>
    if set_ismemberH os sel ≠ 1 then some (-1, sel, os)
    else
      match os with
      | none => none
      | some s =>
        match s.head with
        | none => none
        | some hd =>
          match s.heap.get? hd with
          | none => none
          | some hnd =>
            if s.match_fn hnd.data sel then
              some (0, hnd.data,
                some ⟨s.size - 1, s.match_fn, hnd.next,
                      if hnd.next = none then none else s.tail, s.heap⟩)
            else
              match findPred s sel s.heap.length hd with
              | none => none
              | some pred =>
                match s.heap.get? pred with
                | none => none
                | some pnd =>
                  match pnd.next with
                  | none => none
                  | some oldid =>
                    match s.heap.get? oldid with
                    | none => none
                    | some ond =>
                      some (0, ond.data,
                        some ⟨s.size - 1, s.match_fn, s.head, s.tail,
                              if s.tail = some oldid then updateNext s.heap pred none
                              else updateNext s.heap pred ond.next⟩)
  | none =>
    match os with
    | none => none
    | some s =>
      match s.head with
      | none => none
      | some hd =>
        match s.heap.get? hd with
        | none => none
        | some hnd =>
          some (0, hnd.data,
            some ⟨s.size - 1, s.match_fn, hnd.next,
                  if hnd.next = none then none else s.tail, s.heap⟩)

/-- Data reachable from the head by chasing next pointers, with fuel one
past the heap size. -/
def chainH (s : HSet V) : Nat → Option Nat → List (Option V)
  | _, none => []
  | 0, some _ => []
  | fuel + 1, some i =>
    match s.heap.get? i with
    | none => []
    | some nd => nd.data :: chainH s fuel nd.next

/-- Number of members reachable from head via next-links. -/
def reachCountH (s : HSet V) : Nat :=
  (chainH s (s.heap.length + 1) s.head).length

/-- Trace for the size-invariant claim: create, insert 1, insert 2,
remove 2 by value, insert 3.  Removing 2 removes the tail member but
leaves set->tail pointing at its freed node, so the final insert links
the new member behind the freed node where it is unreachable from
head. -/
def c2step1 : Int × Option (HSet Int) :=
  set_insertH (some (createH cmatch)) (some 1)

/-- Second step of the trace: insert 2. -/
def c2step2 : Int × Option (HSet Int) :=
  set_insertH c2step1.2 (some 2)

/-- Third step of the trace: remove 2 by explicit selector. -/
def c2step3 : Option (Int × Option Int × Option (HSet Int)) :=
  set_removeH c2step2.2 (some 2)

/-- Fourth step of the trace: insert 3. -/
def c2step4 : Int × Option (HSet Int) :=
  match c2step3 with
  | some (_, _, os) => set_insertH os (some 3)
  | none => (-1, none)

/-- C2: after the successful operation sequence insert 1, insert 2,
remove 2, insert 3 from a freshly created set (every step returns 0),
the size field is 2 while only one member is reachable from head via
next-links: set_remove left tail dangling on the freed node and the last
insert appended behind it.  The claimed invariant fails. -/
theorem claim_C2_size_invariant_broken :
    c2step1.1 = 0 ∧ c2step2.1 = 0 ∧
    (c2step3.map (fun r => (r.1, r.2.1))) = some (0, some 2) ∧
    c2step4.1 = 0 ∧
    (c2step4.2.map (fun s => (s.size, reachCountH s))) = some (2, 1) := by
  refine ⟨by decide, by decide, by decide, by decide, by decide⟩

end SetC
